import Mathlib

/-!
Shallow embedding of `src/LlamaScanner.py`.

Network I/O is abstracted by an environment: each HTTP request either raises
(a transport error or timeout, modelled as `ReqOutcome.exn`) or yields a
response carrying a status code and the JSON fields the code reads
(`eval_count`, `eval_duration`); a field may be absent, modelled by `Option`.
Python floats are modelled by `ℚ` (the code's `statistics.mean` computes the
exact rational mean internally). Python dicts are modelled as association
lists with overwriting insertion (`dictInsert`), matching dict update order.
-/

/-- A generation response body as read by the code: status code,
optional `eval_count`, optional `eval_duration` (nanoseconds). -/
structure GenResponse where
  status : Nat
  eval_count : Option Nat
  eval_duration : Option Nat
deriving DecidableEq, Repr

/-- Outcome of one `requests.post` call: a raised transport error / timeout,
or a response (of any status; `requests` does not raise on non-2xx). -/
inductive ReqOutcome where
  | exn : ReqOutcome
  | ok : GenResponse → ReqOutcome
deriving DecidableEq, Repr

/-- Result of `benchmarkSingleModel`: the two string failure markers or a
numeric throughput (tokens/sec, rounded mean). -/
inductive BenchResult where
  | failedWarmup : BenchResult
  | failed : BenchResult
  | speed : ℚ → BenchResult
deriving DecidableEq, Repr

/-- `data.get("eval_duration", 0) > 0` guard, then
`data["eval_count"] / (data["eval_duration"] / 1e9)`; a missing `eval_count`
raises `KeyError`, caught by the bare `except`, so it yields no sample. -/
def extractSample : ReqOutcome → Option ℚ
  | ReqOutcome.exn => none
  | ReqOutcome.ok r =>
    if r.status = 200 then
      if r.eval_duration.getD 0 > 0 then
        match r.eval_count with
        | some c => some ((c : ℚ) / ((r.eval_duration.getD 0 : ℚ) / 1000000000))
        | none => none
      else none
    else none

/-- `statistics.mean`: exact sum divided by count. -/
def mean (l : List ℚ) : ℚ := l.sum / l.length

/-- `round(x, 2)`: round to 2 decimal places. -/
def round2 (q : ℚ) : ℚ := (round (q * 100) : ℤ) / 100

/-- Core of `benchmarkSingleModel` (lines 129-149): the warm-up request, then
one measured request per run.  Returns the result together with the number of
measured generation requests issued: the bare `except` on the warm-up returns
`"Failed (Warmup)"` before the measured loop, otherwise the loop issues one
request per run unconditionally. -/
def benchmarkFromOutcomes (warmup : ReqOutcome) (outcomes : List ReqOutcome) :
    BenchResult × Nat :=
  match warmup with
  | ReqOutcome.exn => (BenchResult.failedWarmup, 0)
  | ReqOutcome.ok _ =>
    let samples := outcomes.filterMap extractSample
    if samples.isEmpty then (BenchResult.failed, outcomes.length)
    else (BenchResult.speed (round2 (mean samples)), outcomes.length)

/-- The benchmark environment: what the network answers for each
(host, model) warm-up request and each (host, model, run-index) measured
request. -/
structure NetEnv where
  warmupOutcome : String → String → ReqOutcome
  runOutcome : String → String → Nat → ReqOutcome

/-- `benchmarkSingleModel(ip, model, args)`: warm-up with the load timeout,
then `args.runs` measured requests. -/
def benchmarkSingleModel (env : NetEnv) (runs : Nat) (ip model : String) :
    BenchResult × Nat :=
  benchmarkFromOutcomes (env.warmupOutcome ip model)
    ((List.range runs).map (env.runOutcome ip model))

/-- Python dict assignment `d[k] = v`: overwrite in place if the key exists,
else append. -/
def dictInsert {α : Type} (k : String) (v : α) :
    List (String × α) → List (String × α)
  | [] => [(k, v)]
  | (k', v') :: rest =>
    if k' = k then (k, v) :: rest else (k', v') :: dictInsert k v rest

/-- Python dict lookup `d[k]` / `k in d`. -/
def dictLookup {α : Type} (k : String) : List (String × α) → Option α
  | [] => none
  | (k', v') :: rest => if k' = k then some v' else dictLookup k rest

/-- `processHostBenchmarks(ip, models, args)` (lines 153-161): benchmark each
model of the host in sequence, storing each result in the `results` dict. -/
def processHostBenchmarks (env : NetEnv) (runs : Nat) (ip : String)
    (models : List String) : String × List (String × BenchResult) :=
  (ip, models.foldl
    (fun acc m => dictInsert m (benchmarkSingleModel env runs ip m).1 acc) [])

/-- `runRobustBenchmarks(inventory, args)` (lines 165-176): one task per
inventory entry; each task's pair `(ip, data)` is stored as
`final_stats[ip] = data`. -/
def runRobustBenchmarks (env : NetEnv) (runs : Nat)
    (inventory : List (String × List String)) :
    List (String × List (String × BenchResult)) :=
  inventory.foldl
    (fun acc entry =>
      dictInsert (processHostBenchmarks env runs entry.1 entry.2).1
        (processHostBenchmarks env runs entry.1 entry.2).2 acc) []

/-- `mapNetwork(hosts)` (lines 105-115): `tagsEnv ip` is the model list the
host answered with (a failed `/api/tags` query yields `[]` via the bare
`except` in `getModelsOnHost`); only non-empty lists are stored. -/
def mapNetwork (tagsEnv : String → List String) (hosts : List String) :
    List (String × List String) :=
  hosts.foldl
    (fun acc ip =>
      if (tagsEnv ip).isEmpty then acc else dictInsert ip (tagsEnv ip) acc) []

/-- One row of the routing DataFrame (model, route, ip, tps). -/
structure RoutingRow where
  model : String
  route : String
  ip : String
  tps : ℚ
deriving DecidableEq, Repr

/-- The row-collection loop of `generateRoutingDataFrame` (lines 182-191):
keep only numeric speeds, synthesize route and endpoint strings. -/
def collectRows (stats : List (String × List (String × BenchResult))) :
    List RoutingRow :=
  stats.flatMap (fun hm =>
    hm.2.filterMap (fun ms =>
      match ms.2 with
      | BenchResult.speed q =>
        some ⟨ms.1, "ollama/" ++ ms.1, "http://" ++ hm.1 ++ ":11434", q⟩
      | _ => none))

/-- The sort key of `df.sort_values(by=["model", "tps"],
ascending=[True, False])`: model ascending, tps descending. -/
def rowLE (a b : RoutingRow) : Prop :=
  a.model < b.model ∨ (a.model = b.model ∧ b.tps ≤ a.tps)

instance : DecidableRel rowLE := fun a b => by
  unfold rowLE; infer_instance

/-- `generateRoutingDataFrame(stats)` (lines 180-197): collect the numeric
rows, then sort by model ascending and tps descending. -/
def generateRoutingDataFrame
    (stats : List (String × List (String × BenchResult))) : List RoutingRow :=
  List.insertionSort rowLE (collectRows stats)

/-- The keys of a modelled dict. -/
def dictKeys {α : Type} (d : List (String × α)) : List String := d.map Prod.fst

lemma dictLookup_dictInsert_self {α : Type} (k : String) (v : α)
    (d : List (String × α)) : dictLookup k (dictInsert k v d) = some v := by
  induction d with
  | nil => simp [dictInsert, dictLookup]
  | cons hd tl ih =>
    obtain ⟨k', v'⟩ := hd
    by_cases h : k' = k <;> simp [dictInsert, dictLookup, h, ih]

lemma dictLookup_dictInsert_ne {α : Type} {k k' : String} (v : α)
    (d : List (String × α)) (h : k' ≠ k) :
    dictLookup k' (dictInsert k v d) = dictLookup k' d := by
  induction d with
  | nil => simp [dictInsert, dictLookup, Ne.symm h]
  | cons hd tl ih =>
    obtain ⟨k'', v''⟩ := hd
    by_cases h2 : k'' = k
    · subst h2
      simp [dictInsert, dictLookup, Ne.symm h]
    · simp only [dictInsert, if_neg h2, dictLookup, ih]

lemma dictKeys_dictInsert {α : Type} (k : String) (v : α)
    (d : List (String × α)) :
    dictKeys (dictInsert k v d)
      = if k ∈ dictKeys d then dictKeys d else dictKeys d ++ [k] := by
  induction d with
  | nil => simp [dictInsert, dictKeys]
  | cons hd tl ih =>
    obtain ⟨k', v'⟩ := hd
    by_cases h : k' = k
    · subst h
      simp [dictInsert, dictKeys]
    · simp only [dictInsert, if_neg h, dictKeys, List.map_cons] at ih ⊢
      rw [ih]
      by_cases h2 : k ∈ List.map Prod.fst tl
      · simp [h2, List.mem_cons, Ne.symm h]
      · simp [h2, List.mem_cons, Ne.symm h]

lemma dictKeys_nodup_dictInsert {α : Type} (k : String) (v : α)
    {d : List (String × α)} (h : (dictKeys d).Nodup) :
    (dictKeys (dictInsert k v d)).Nodup := by
  rw [dictKeys_dictInsert]
  split
  · exact h
  · next hk => simp [List.nodup_append, h, hk]

lemma foldl_preserve {β γ : Type} (P : γ → Prop) (step : γ → β → γ)
    (hstep : ∀ acc b, P acc → P (step acc b)) :
    ∀ (l : List β) (acc : γ), P acc → P (l.foldl step acc)
  | [], _, h => h
  | b :: t, acc, h => foldl_preserve P step hstep t (step acc b) (hstep acc b h)

lemma processHost_foldl_lookup (env : NetEnv) (runs : Nat) (ip : String) :
    ∀ (models : List String) (acc : List (String × BenchResult)) (m : String),
    dictLookup m (models.foldl
        (fun acc m => dictInsert m (benchmarkSingleModel env runs ip m).1 acc)
        acc)
      = if m ∈ models then some (benchmarkSingleModel env runs ip m).1
        else dictLookup m acc := by
  intro models
  induction models with
  | nil => intro acc m; simp
  | cons hd tl ih =>
    intro acc m
    rw [List.foldl_cons, ih]
    by_cases htl : m ∈ tl
    · simp [htl, List.mem_cons]
    · by_cases hhd : m = hd
      · subst hhd
        simp [htl, dictLookup_dictInsert_self]
      · simp [htl, hhd, List.mem_cons, dictLookup_dictInsert_ne _ _ hhd]

/-- Per-host result dict: lookup characterization. -/
lemma processHost_lookup (env : NetEnv) (runs : Nat) (ip : String)
    (models : List String) (m : String) :
    dictLookup m (processHostBenchmarks env runs ip models).2
      = if m ∈ models then some (benchmarkSingleModel env runs ip m).1
        else none := by
  unfold processHostBenchmarks
  rw [processHost_foldl_lookup]
  rfl

/-- Per-host result dict: keys have no duplicates. -/
lemma processHost_keys_nodup (env : NetEnv) (runs : Nat) (ip : String)
    (models : List String) :
    (dictKeys (processHostBenchmarks env runs ip models).2).Nodup := by
  unfold processHostBenchmarks
  exact foldl_preserve (fun d => (dictKeys d).Nodup) _
    (fun acc m h => dictKeys_nodup_dictInsert m _ h) models [] (by simp [dictKeys])

lemma runRobust_foldl_lookup_not_mem (env : NetEnv) (runs : Nat) :
    ∀ (l : List (String × List String)) (acc : List (String × List (String × BenchResult)))
      (ip : String), ip ∉ l.map Prod.fst →
    dictLookup ip (l.foldl
        (fun acc entry =>
          dictInsert (processHostBenchmarks env runs entry.1 entry.2).1
            (processHostBenchmarks env runs entry.1 entry.2).2 acc) acc)
      = dictLookup ip acc := by
  intro l
  induction l with
  | nil => intro acc ip _; rfl
  | cons hd tl ih =>
    intro acc ip h
    simp only [List.map_cons, List.mem_cons] at h
    push_neg at h
    rw [List.foldl_cons, ih _ _ h.2]
    exact dictLookup_dictInsert_ne _ _ h.1

lemma runRobust_foldl_lookup (env : NetEnv) (runs : Nat) :
    ∀ (l : List (String × List String)) (acc : List (String × List (String × BenchResult)))
      (ip : String) (models : List String),
      (l.map Prod.fst).Nodup → (ip, models) ∈ l →
    dictLookup ip (l.foldl
        (fun acc entry =>
          dictInsert (processHostBenchmarks env runs entry.1 entry.2).1
            (processHostBenchmarks env runs entry.1 entry.2).2 acc) acc)
      = some (processHostBenchmarks env runs ip models).2 := by
  intro l
  induction l with
  | nil => intro acc ip models _ hmem; simp at hmem
  | cons hd tl ih =>
    intro acc ip models hnd hmem
    simp only [List.map_cons, List.nodup_cons] at hnd
    rcases List.mem_cons.mp hmem with heq | htl
    · subst heq
      rw [List.foldl_cons,
        runRobust_foldl_lookup_not_mem env runs tl _ ip hnd.1]
      exact dictLookup_dictInsert_self _ _ _
    · exact ih _ ip models hnd.2 htl

/-- `runRobustBenchmarks`: lookup of a host present in the inventory. -/
lemma runRobust_lookup (env : NetEnv) (runs : Nat)
    (inventory : List (String × List String))
    (hnd : (inventory.map Prod.fst).Nodup) (ip : String) (models : List String)
    (hmem : (ip, models) ∈ inventory) :
    dictLookup ip (runRobustBenchmarks env runs inventory)
      = some (processHostBenchmarks env runs ip models).2 :=
  runRobust_foldl_lookup env runs inventory [] ip models hnd hmem

/-- `runRobustBenchmarks`: outer keys have no duplicates. -/
lemma runRobust_keys_nodup (env : NetEnv) (runs : Nat)
    (inventory : List (String × List String)) :
    (dictKeys (runRobustBenchmarks env runs inventory)).Nodup := by
  unfold runRobustBenchmarks
  exact foldl_preserve (fun d => (dictKeys d).Nodup) _
    (fun acc e h => dictKeys_nodup_dictInsert _ _ h) inventory []
    (by simp [dictKeys])

lemma mapNetwork_foldl_lookup (tagsEnv : String → List String) :
    ∀ (hosts : List String) (acc : List (String × List String)) (ip : String),
    dictLookup ip (hosts.foldl
        (fun acc ip =>
          if (tagsEnv ip).isEmpty then acc else dictInsert ip (tagsEnv ip) acc)
        acc)
      = if ip ∈ hosts ∧ ¬(tagsEnv ip).isEmpty then some (tagsEnv ip)
        else dictLookup ip acc := by
  intro hosts
  induction hosts with
  | nil => intro acc ip; simp
  | cons hd tl ih =>
    intro acc ip
    rw [List.foldl_cons, ih]
    by_cases htl : ip ∈ tl ∧ ¬(tagsEnv ip).isEmpty
    · rw [if_pos htl, if_pos ⟨List.mem_cons_of_mem _ htl.1, htl.2⟩]
    · rw [if_neg htl]
      by_cases hip : ip = hd
      · subst hip
        by_cases hemp : (tagsEnv ip).isEmpty
        · rw [if_pos hemp, if_neg (fun h => h.2 hemp)]
        · rw [if_neg hemp, dictLookup_dictInsert_self,
            if_pos ⟨List.mem_cons_self _ _, hemp⟩]
      · have hcond : ¬(ip ∈ hd :: tl ∧ ¬(tagsEnv ip).isEmpty) := by
          rintro ⟨hm, he⟩
          rcases List.mem_cons.mp hm with h1 | h1
          · exact hip h1
          · exact htl ⟨h1, he⟩
        rw [if_neg hcond]
        by_cases hemp : (tagsEnv hd).isEmpty
        · rw [if_pos hemp]
        · rw [if_neg hemp, dictLookup_dictInsert_ne _ _ hip]

/-- `mapNetwork`: lookup characterization. -/
lemma mapNetwork_lookup (tagsEnv : String → List String) (hosts : List String)
    (ip : String) :
    dictLookup ip (mapNetwork tagsEnv hosts)
      = if ip ∈ hosts ∧ ¬(tagsEnv ip).isEmpty then some (tagsEnv ip)
        else none := by
  unfold mapNetwork
  rw [mapNetwork_foldl_lookup]
  rfl

/-- Environment in which every request raises. -/
def envAllFail : NetEnv :=
  ⟨fun _ _ => ReqOutcome.exn, fun _ _ _ => ReqOutcome.exn⟩

/-- A non-2xx warm-up response with no usable fields. -/
def resp500 : GenResponse := ⟨500, none, none⟩

/-- Environment whose warm-up answers 500 and whose measured requests raise. -/
def envWarm500 : NetEnv :=
  ⟨fun _ _ => ReqOutcome.ok resp500, fun _ _ _ => ReqOutcome.exn⟩

/-- C2: if the warm-up request fails or times out, `benchmarkSingleModel`
returns the `Failed (Warmup)` marker and issues exactly zero measured
generation requests for that pair. -/
theorem warmup_failure_skips_measured_runs (env : NetEnv) (runs : Nat)
    (ip model : String) (h : env.warmupOutcome ip model = ReqOutcome.exn) :
    benchmarkSingleModel env runs ip model = (BenchResult.failedWarmup, 0) := by
  unfold benchmarkSingleModel benchmarkFromOutcomes
  rw [h]

theorem warmup_failure_skips_measured_runs_witness :
    benchmarkSingleModel envAllFail 3 "100.1.1.1" "llama3"
      = (BenchResult.failedWarmup, 0) :=
  warmup_failure_skips_measured_runs envAllFail 3 "100.1.1.1" "llama3" rfl

/-- C9: a warm-up request that receives any HTTP response — including a
non-2xx status — is not a warm-up failure: the marker appears iff the request
raised, and on any response all `runs` measured requests are issued. -/
theorem warmup_marker_iff_request_raised (env : NetEnv) (runs : Nat)
    (ip model : String) :
    ((benchmarkSingleModel env runs ip model).1 = BenchResult.failedWarmup
      ↔ env.warmupOutcome ip model = ReqOutcome.exn) ∧
    (∀ r : GenResponse, env.warmupOutcome ip model = ReqOutcome.ok r →
      (benchmarkSingleModel env runs ip model).1 ≠ BenchResult.failedWarmup ∧
      (benchmarkSingleModel env runs ip model).2 = runs) := by
  have hmain : ∀ r : GenResponse, env.warmupOutcome ip model = ReqOutcome.ok r →
      (benchmarkSingleModel env runs ip model).1 ≠ BenchResult.failedWarmup ∧
      (benchmarkSingleModel env runs ip model).2 = runs := by
    intro r hr
    have hrw : benchmarkSingleModel env runs ip model
        = benchmarkFromOutcomes (ReqOutcome.ok r)
            ((List.range runs).map (env.runOutcome ip model)) := by
      unfold benchmarkSingleModel
      rw [hr]
    rw [hrw]
    unfold benchmarkFromOutcomes
    dsimp only
    constructor
    · split <;> simp
    · split <;> simp
  refine ⟨⟨fun h1 => ?_, fun h1 => ?_⟩, hmain⟩
  · cases hw : env.warmupOutcome ip model with
    | exn => rfl
    | ok r => exact absurd h1 (hmain r hw).1
  · unfold benchmarkSingleModel benchmarkFromOutcomes
    rw [h1]

theorem warmup_marker_iff_request_raised_witness :
    ((benchmarkSingleModel envWarm500 3 "100.1.1.1" "llama3").1
        = BenchResult.failedWarmup
      ↔ envWarm500.warmupOutcome "100.1.1.1" "llama3" = ReqOutcome.exn) ∧
    ((benchmarkSingleModel envWarm500 3 "100.1.1.1" "llama3").1
        ≠ BenchResult.failedWarmup ∧
      (benchmarkSingleModel envWarm500 3 "100.1.1.1" "llama3").2 = 3) :=
  ⟨(warmup_marker_iff_request_raised envWarm500 3 "100.1.1.1" "llama3").1,
    (warmup_marker_iff_request_raised envWarm500 3 "100.1.1.1" "llama3").2
      resp500 rfl⟩

/-- C3: a throughput sample is computed only from a 200 response whose
reported `eval_duration` is strictly positive (so the denominator of the
division is nonzero); zero or missing duration yields no sample, and if every
run reports `eval_duration = 0` the pair's result is `Failed`. -/
theorem positive_duration_guard (w : GenResponse)
    (outcomes : List ReqOutcome) :
    (∀ r : GenResponse, r.eval_duration.getD 0 = 0 →
      extractSample (ReqOutcome.ok r) = none) ∧
    (∀ (o : ReqOutcome) (q : ℚ), extractSample o = some q →
      ∃ (r : GenResponse) (c : Nat), o = ReqOutcome.ok r ∧ r.status = 200 ∧
        r.eval_count = some c ∧ 0 < r.eval_duration.getD 0 ∧
        ((r.eval_duration.getD 0 : ℚ) / 1000000000) ≠ 0 ∧
        q = (c : ℚ) / ((r.eval_duration.getD 0 : ℚ) / 1000000000)) ∧
    ((∀ o ∈ outcomes, ∃ r : GenResponse,
        o = ReqOutcome.ok r ∧ r.eval_duration = some 0) →
      (benchmarkFromOutcomes (ReqOutcome.ok w) outcomes).1
        = BenchResult.failed) := by
  have hzero : ∀ r : GenResponse, r.eval_duration.getD 0 = 0 →
      extractSample (ReqOutcome.ok r) = none := by
    intro r h
    simp [extractSample, h]
  refine ⟨hzero, ?_, ?_⟩
  · intro o q hq
    cases o with
    | exn => simp [extractSample] at hq
    | ok r =>
      simp only [extractSample] at hq
      by_cases h1 : r.status = 200
      · rw [if_pos h1] at hq
        by_cases h2 : r.eval_duration.getD 0 > 0
        · rw [if_pos h2] at hq
          cases hc : r.eval_count with
          | none => rw [hc] at hq; exact absurd hq (by simp)
          | some c =>
            rw [hc] at hq
            have hd : ((r.eval_duration.getD 0 : ℚ) / 1000000000) ≠ 0 := by
              have : (0 : ℚ) < (r.eval_duration.getD 0 : ℚ) := by
                exact_mod_cast h2
              positivity
            exact ⟨r, c, rfl, h1, hc, h2, hd, (Option.some_inj.mp hq).symm⟩
        · rw [if_neg h2] at hq; exact absurd hq (by simp)
      · rw [if_neg h1] at hq; exact absurd hq (by simp)
  · intro hall
    have hnil : outcomes.filterMap extractSample = [] := by
      rw [List.filterMap_eq_nil_iff]
      intro o ho
      obtain ⟨r, rfl, hdur⟩ := hall o ho
      exact hzero r (by rw [hdur]; rfl)
    unfold benchmarkFromOutcomes
    rw [hnil]
    rfl

theorem positive_duration_guard_witness :
    extractSample (ReqOutcome.ok ⟨200, some 40, some 0⟩) = none ∧
    (benchmarkFromOutcomes (ReqOutcome.ok ⟨200, some 40, some 0⟩)
        [ReqOutcome.ok ⟨200, some 40, some 0⟩,
         ReqOutcome.ok ⟨200, some 40, some 0⟩]).1 = BenchResult.failed :=
  ⟨(positive_duration_guard ⟨200, some 40, some 0⟩ []).1 _ rfl,
    (positive_duration_guard ⟨200, some 40, some 0⟩
        [ReqOutcome.ok ⟨200, some 40, some 0⟩,
         ReqOutcome.ok ⟨200, some 40, some 0⟩]).2.2
      (by
        intro o ho
        refine ⟨⟨200, some 40, some 0⟩, ?_, rfl⟩
        simpa using ho)⟩

/-- C4: with at least one valid sample the pair's result is the arithmetic
mean of the collected samples rounded to 2 decimal places; with zero valid
samples it is the `Failed` marker. -/
theorem aggregation_mean_or_failed (w : GenResponse)
    (outcomes : List ReqOutcome) :
    (outcomes.filterMap extractSample ≠ [] →
      (benchmarkFromOutcomes (ReqOutcome.ok w) outcomes).1
        = BenchResult.speed (round2 ((outcomes.filterMap extractSample).sum
            / ((outcomes.filterMap extractSample).length : ℚ)))) ∧
    (outcomes.filterMap extractSample = [] →
      (benchmarkFromOutcomes (ReqOutcome.ok w) outcomes).1
        = BenchResult.failed) := by
  constructor
  · intro h
    unfold benchmarkFromOutcomes
    simp only [List.isEmpty_iff, h, if_false]
    rfl
  · intro h
    unfold benchmarkFromOutcomes
    rw [h]
    rfl

theorem aggregation_mean_or_failed_witness :
    (benchmarkFromOutcomes (ReqOutcome.ok ⟨200, none, none⟩)
        [ReqOutcome.ok ⟨200, some 100, some 2000000000⟩]).1
      = BenchResult.speed (round2
          (([ReqOutcome.ok ⟨200, some 100, some 2000000000⟩].filterMap
              extractSample).sum
            / (([ReqOutcome.ok ⟨200, some 100, some 2000000000⟩].filterMap
                extractSample).length : ℚ))) :=
  (aggregation_mean_or_failed ⟨200, none, none⟩
      [ReqOutcome.ok ⟨200, some 100, some 2000000000⟩]).1
    (by simp [extractSample])

/-- C10: a 200 response with strictly positive `eval_duration` but no
`eval_count` field contributes no sample and does not abort the pair: the
result equals the aggregate over the remaining runs, and every run is still
issued. -/
theorem missing_eval_count_contained (w bad : GenResponse)
    (pre post : List ReqOutcome) (h200 : bad.status = 200)
    (hdur : 0 < bad.eval_duration.getD 0) (hcnt : bad.eval_count = none) :
    (benchmarkFromOutcomes (ReqOutcome.ok w)
        (pre ++ ReqOutcome.ok bad :: post)).1
      = (benchmarkFromOutcomes (ReqOutcome.ok w) (pre ++ post)).1 ∧
    (benchmarkFromOutcomes (ReqOutcome.ok w)
        (pre ++ ReqOutcome.ok bad :: post)).2
      = pre.length + post.length + 1 := by
  have hnone : extractSample (ReqOutcome.ok bad) = none := by
    simp only [extractSample, if_pos h200, if_pos hdur, hcnt]
  have hsamples : (pre ++ ReqOutcome.ok bad :: post).filterMap extractSample
      = (pre ++ post).filterMap extractSample := by
    rw [List.filterMap_append, List.filterMap_cons, hnone,
      List.filterMap_append]
  constructor
  · unfold benchmarkFromOutcomes
    rw [hsamples]
    dsimp only
    split <;> rfl
  · unfold benchmarkFromOutcomes
    dsimp only
    split <;> simp <;> omega

theorem missing_eval_count_contained_witness :
    (benchmarkFromOutcomes (ReqOutcome.ok ⟨200, none, none⟩)
        [ReqOutcome.exn, ReqOutcome.ok ⟨200, none, some 1000000000⟩,
         ReqOutcome.exn]).1
      = (benchmarkFromOutcomes (ReqOutcome.ok ⟨200, none, none⟩)
          [ReqOutcome.exn, ReqOutcome.exn]).1 ∧
    (benchmarkFromOutcomes (ReqOutcome.ok ⟨200, none, none⟩)
        [ReqOutcome.exn, ReqOutcome.ok ⟨200, none, some 1000000000⟩,
         ReqOutcome.exn]).2 = 3 :=
  missing_eval_count_contained ⟨200, none, none⟩ ⟨200, none, some 1000000000⟩
    [ReqOutcome.exn] [ReqOutcome.exn] rfl (by decide) rfl
example : extractSample (ReqOutcome.ok ⟨200, some 100, some 0⟩) = none := by
  decide
example : extractSample (ReqOutcome.ok ⟨200, some 100, none⟩) = none := by
  decide
example : extractSample (ReqOutcome.ok ⟨500, some 100, some 2000000000⟩)
    = none := by decide
example : extractSample (ReqOutcome.ok ⟨200, none, some 2000000000⟩)
    = none := by decide
example :
    benchmarkFromOutcomes ReqOutcome.exn
      [ReqOutcome.ok ⟨200, some 100, some 1000000000⟩]
    = (BenchResult.failedWarmup, 0) := by decide
example : round2 (1234567 / 10000 : ℚ) = (12346 / 100 : ℚ) := by
  norm_num [round2, round_eq]

/-- C8: the aggregated result does not depend on the order in which the
measured runs completed. -/
theorem aggregation_perm_invariant (w : ReqOutcome)
    (outcomes outcomes' : List ReqOutcome)
    (hperm : outcomes.Perm outcomes') :
    benchmarkFromOutcomes w outcomes = benchmarkFromOutcomes w outcomes' := by
  cases w with
  | exn => rfl
  | ok r =>
    have hs : (outcomes.filterMap extractSample).Perm
        (outcomes'.filterMap extractSample) := hperm.filterMap _
    unfold benchmarkFromOutcomes
    dsimp only
    rw [hperm.length_eq]
    by_cases hA : outcomes.filterMap extractSample = []
    · have hB : outcomes'.filterMap extractSample = [] :=
        (List.Perm.symm (hA ▸ hs)).eq_nil
      rw [hA, hB]
    · have hB : outcomes'.filterMap extractSample ≠ [] := by
        intro hB
        exact hA (List.Perm.eq_nil (hB ▸ hs))
      have hmean : mean (outcomes.filterMap extractSample)
          = mean (outcomes'.filterMap extractSample) := by
        unfold mean
        rw [hs.sum_eq, hs.length_eq]
      have hemp : (outcomes.filterMap extractSample).isEmpty
          = (outcomes'.filterMap extractSample).isEmpty := by
        cases h1 : outcomes.filterMap extractSample with
        | nil => exact absurd h1 hA
        | cons a l =>
          cases h2 : outcomes'.filterMap extractSample with
          | nil => exact absurd h2 hB
          | cons b m => rfl
      rw [hemp, hmean]

theorem aggregation_perm_invariant_witness :
    benchmarkFromOutcomes (ReqOutcome.ok ⟨200, none, none⟩)
        [ReqOutcome.exn, ReqOutcome.ok ⟨200, some 10, some 1000000000⟩]
      = benchmarkFromOutcomes (ReqOutcome.ok ⟨200, none, none⟩)
        [ReqOutcome.ok ⟨200, some 10, some 1000000000⟩, ReqOutcome.exn] :=
  aggregation_perm_invariant (ReqOutcome.ok ⟨200, none, none⟩)
    [ReqOutcome.exn, ReqOutcome.ok ⟨200, some 10, some 1000000000⟩]
    [ReqOutcome.ok ⟨200, some 10, some 1000000000⟩, ReqOutcome.exn]
    (List.Perm.swap (ReqOutcome.ok ⟨200, some 10, some 1000000000⟩)
      ReqOutcome.exn [])

/-- Tags environment for the inventory witness: one host with a model, the
other with none. -/
def tagsEnvW : String → List String :=
  fun ip => if ip = "100.1.1.1" then ["llama3"] else []

/-- C7: the inventory never maps a host to an empty model list; a host whose
query failed or returned zero models is absent, and a key is present exactly
for the scanned hosts that answered with a non-empty model list. -/
theorem inventory_no_empty_model_lists (tagsEnv : String → List String)
    (hosts : List String) (ip : String) :
    dictLookup ip (mapNetwork tagsEnv hosts) ≠ some [] ∧
    (tagsEnv ip = [] → dictLookup ip (mapNetwork tagsEnv hosts) = none) ∧
    ((dictLookup ip (mapNetwork tagsEnv hosts)).isSome
      ↔ ip ∈ hosts ∧ tagsEnv ip ≠ []) := by
  rw [mapNetwork_lookup]
  by_cases h : ip ∈ hosts ∧ ¬(tagsEnv ip).isEmpty
  · rw [if_pos h]
    have hne : tagsEnv ip ≠ [] := fun hnil => h.2 (by rw [hnil]; rfl)
    exact ⟨by simp [hne], fun hnil => absurd hnil hne, by simp [h.1, hne]⟩
  · rw [if_neg h]
    refine ⟨by simp, fun _ => rfl, ?_⟩
    simp only [Option.isSome_none, Bool.false_eq_true, false_iff]
    rintro ⟨h1, h2⟩
    exact h ⟨h1, fun he => h2 (List.isEmpty_iff.mp he)⟩

theorem inventory_no_empty_model_lists_witness :
    dictLookup "100.1.1.2" (mapNetwork tagsEnvW ["100.1.1.1", "100.1.1.2"])
      ≠ some [] ∧
    (tagsEnvW "100.1.1.2" = [] →
      dictLookup "100.1.1.2" (mapNetwork tagsEnvW ["100.1.1.1", "100.1.1.2"])
        = none) ∧
    ((dictLookup "100.1.1.2"
        (mapNetwork tagsEnvW ["100.1.1.1", "100.1.1.2"])).isSome
      ↔ "100.1.1.2" ∈ ["100.1.1.1", "100.1.1.2"] ∧ tagsEnvW "100.1.1.2" ≠ []) :=
  inventory_no_empty_model_lists tagsEnvW ["100.1.1.1", "100.1.1.2"]
    "100.1.1.2"

/-- C1: after the orchestrator completes, every (host, model) pair of the
inventory has exactly one entry in the result — the host appears as a key,
its per-model dict holds a key exactly for its inventoried models with no
duplicates, and each entry carries that pair's benchmark outcome (possibly a
failure marker, never dropped). -/
theorem benchmark_covers_inventory (env : NetEnv) (runs : Nat)
    (inventory : List (String × List String))
    (hnd : (inventory.map Prod.fst).Nodup)
    (ip : String) (models : List String)
    (hmem : (ip, models) ∈ inventory) :
    ∃ hostMap : List (String × BenchResult),
      dictLookup ip (runRobustBenchmarks env runs inventory) = some hostMap ∧
      (∀ m : String, (dictLookup m hostMap).isSome ↔ m ∈ models) ∧
      (∀ m : String, m ∈ models →
        dictLookup m hostMap = some (benchmarkSingleModel env runs ip m).1) ∧
      (dictKeys hostMap).Nodup := by
  refine ⟨(processHostBenchmarks env runs ip models).2,
    runRobust_lookup env runs inventory hnd ip models hmem, ?_, ?_,
    processHost_keys_nodup env runs ip models⟩
  · intro m
    rw [processHost_lookup]
    split
    · next h => simp [h]
    · next h => simp [h]
  · intro m hm
    rw [processHost_lookup, if_pos hm]

theorem benchmark_covers_inventory_witness :
    ∃ hostMap : List (String × BenchResult),
      dictLookup "100.1.1.1"
          (runRobustBenchmarks envAllFail 3 [("100.1.1.1", ["llama3"])])
        = some hostMap ∧
      (∀ m : String, (dictLookup m hostMap).isSome ↔ m ∈ ["llama3"]) ∧
      (∀ m : String, m ∈ ["llama3"] →
        dictLookup m hostMap
          = some (benchmarkSingleModel envAllFail 3 "100.1.1.1" m).1) ∧
      (dictKeys hostMap).Nodup :=
  benchmark_covers_inventory envAllFail 3 [("100.1.1.1", ["llama3"])]
    (by decide) "100.1.1.1" ["llama3"] (by decide)

lemma rowLE_total : ∀ a b : RoutingRow, rowLE a b ∨ rowLE b a := by
  intro a b
  rcases lt_trichotomy a.model b.model with h | h | h
  · exact Or.inl (Or.inl h)
  · rcases le_total b.tps a.tps with h2 | h2
    · exact Or.inl (Or.inr ⟨h, h2⟩)
    · exact Or.inr (Or.inr ⟨h.symm, h2⟩)
  · exact Or.inr (Or.inl h)

instance : IsTotal RoutingRow rowLE := ⟨rowLE_total⟩

lemma rowLE_trans : ∀ a b c : RoutingRow,
    rowLE a b → rowLE b c → rowLE a c := by
  intro a b c hab hbc
  rcases hab with h1 | ⟨h1, h1t⟩ <;> rcases hbc with h2 | ⟨h2, h2t⟩
  · exact Or.inl (h1.trans h2)
  · exact Or.inl (h1.trans_eq h2)
  · exact Or.inl (h1.trans_lt h2)
  · exact Or.inr ⟨h1.trans h2, h2t.trans h1t⟩

instance : IsTrans RoutingRow rowLE := ⟨rowLE_trans⟩

/-- C5: the routing table holds exactly the rows of the numeric
(host, model) entries — failure markers filtered out — sorted primarily by
model identifier ascending (any earlier row's model is ≤ any later row's)
and secondarily by throughput descending, so within equal models an earlier
row's throughput is at least a later one's; no numeric entries give the
empty table. -/
theorem routing_table_filter_sort
    (stats : List (String × List (String × BenchResult))) :
    (generateRoutingDataFrame stats).Perm (collectRows stats) ∧
    (∀ row : RoutingRow, row ∈ generateRoutingDataFrame stats ↔
      ∃ ip models, (ip, models) ∈ stats ∧
        (row.model, BenchResult.speed row.tps) ∈ models ∧
        row.route = "ollama/" ++ row.model ∧
        row.ip = "http://" ++ ip ++ ":11434") ∧
    (∀ i j : Fin (generateRoutingDataFrame stats).length, i < j →
      ((generateRoutingDataFrame stats).get i).model
        ≤ ((generateRoutingDataFrame stats).get j).model) ∧
    (∀ i j : Fin (generateRoutingDataFrame stats).length, i < j →
      ((generateRoutingDataFrame stats).get i).model
        = ((generateRoutingDataFrame stats).get j).model →
      ((generateRoutingDataFrame stats).get j).tps
        ≤ ((generateRoutingDataFrame stats).get i).tps) ∧
    (collectRows stats = [] → generateRoutingDataFrame stats = []) := by
  have hperm : (generateRoutingDataFrame stats).Perm (collectRows stats) :=
    List.perm_insertionSort rowLE (collectRows stats)
  have hsorted : List.Sorted rowLE (generateRoutingDataFrame stats) :=
    List.sorted_insertionSort rowLE (collectRows stats)
  have hmem : ∀ row : RoutingRow, row ∈ collectRows stats ↔
      ∃ ip models, (ip, models) ∈ stats ∧
        (row.model, BenchResult.speed row.tps) ∈ models ∧
        row.route = "ollama/" ++ row.model ∧
        row.ip = "http://" ++ ip ++ ":11434" := by
    intro row
    unfold collectRows
    rw [List.mem_flatMap]
    constructor
    · rintro ⟨⟨ip, models⟩, hin, hrow⟩
      rw [List.mem_filterMap] at hrow
      obtain ⟨⟨m, r⟩, hmr, hf⟩ := hrow
      cases r with
      | speed q =>
        simp only at hf
        obtain rfl := (Option.some_inj.mp hf).symm
        exact ⟨ip, models, hin, hmr, rfl, rfl⟩
      | failedWarmup => simp at hf
      | failed => simp at hf
    · rintro ⟨ip, models, hin, hmem2, hroute, hip⟩
      refine ⟨(ip, models), hin, ?_⟩
      rw [List.mem_filterMap]
      refine ⟨(row.model, BenchResult.speed row.tps), hmem2, ?_⟩
      simp only
      rw [← hroute, ← hip]
  refine ⟨hperm, fun row => (hperm.mem_iff).trans (hmem row), ?_, ?_, ?_⟩
  · intro i j hij
    rcases hsorted.rel_get_of_lt hij with h | ⟨h1, _⟩
    · exact le_of_lt h
    · exact le_of_eq h1
  · intro i j hij heq
    rcases hsorted.rel_get_of_lt hij with h | ⟨h1, h2⟩
    · exact absurd heq (ne_of_lt h)
    · exact h2
  · intro h
    unfold generateRoutingDataFrame
    rw [h]
    rfl

/-- Benchmark stats fixture for the routing-table witness. -/
def statsW : List (String × List (String × BenchResult)) :=
  [("100.1.1.1", [("llama3", BenchResult.speed 3),
                  ("mistral", BenchResult.failed)]),
   ("100.1.1.2", [("llama3", BenchResult.speed 5),
                  ("mistral", BenchResult.speed 7)])]

theorem routing_table_filter_sort_witness :
    (generateRoutingDataFrame statsW).Perm (collectRows statsW) ∧
    (⟨"llama3", "ollama/llama3", "http://100.1.1.2:11434", 5⟩ : RoutingRow)
      ∈ generateRoutingDataFrame statsW :=
  ⟨(routing_table_filter_sort statsW).1,
    ((routing_table_filter_sort statsW).2.1 _).mpr
      ⟨"100.1.1.2", [("llama3", BenchResult.speed 5),
          ("mistral", BenchResult.speed 7)], by decide, by decide, rfl, rfl⟩⟩
